import Mathlib

/-!
Verification of the ckb-multisig lock script (`contracts/ckb-multisig/src/entry.rs`)
against its natural-language specification.

Bytes are modelled as `Nat` (host bytes are < 256; none of the properties below
need that bound).  Machine `u64` arithmetic is modelled as `Nat` with explicit
`% 2 ^ 64`; right shifts and masks are division and modulus by powers of two.
The host environment (script args, the first group input's witness lock field,
and the sequence of `load_input_since(i, Source::GroupOutput)` answers) is an
explicit record; the end-of-sequence `IndexOutOfBound` signal is the end of the
list.
-/

set_option maxRecDepth 8192

deriving instance DecidableEq for Except

namespace CkbMultisig

/-- Error codes of the contract (`error.rs` variants used by `entry.rs`). -/
inductive Error where
  | ArgumentsLen
  | WitnessSize
  | InvalidReserveField
  | InvalidThreshold
  | InvalidPubkeysCnt
  | InvalidRequireFirstN
  | MultsigScriptHash
  | IncorrectSinceFlags
  | IncorrectSinceValue
  deriving DecidableEq, Repr

/-- Host environment: script args bytes, the optional witness lock field of the
first group input, and the since values the host reports for the group output
slots (in index order; the list end is the `IndexOutOfBound` signal). -/
structure Env where
  args : List Nat
  lock : Option (List Nat)
  sinces : List Nat

def BLAKE160_SIZE : Nat := 20
def U64_SIZE : Nat := 8
def FLAGS_SIZE : Nat := 4
def SIGNATURE_SIZE : Nat := 65
def BLAKE2B_BLOCK_SIZE : Nat := 32

/-- `u64::from_le_bytes` on (up to) the first 8 bytes of a buffer. -/
def u64FromLE (bs : List Nat) : Nat :=
  (bs.take 8).foldr (fun b acc => b + 256 * acc) 0

/-! ## Blake2b-256 (`blake2b_ref`, `Blake2bBuilder::new(32)`, unkeyed) -/

def M64 : Nat := 2 ^ 64

/-- 64-bit rotate right (input assumed < 2^64). -/
def rotr64 (x n : Nat) : Nat := x / 2 ^ n + x % 2 ^ n * 2 ^ (64 - n)

def blakeIV : List Nat :=
  [0x6a09e667f3bcc908, 0xbb67ae8584caa73b, 0x3c6ef372fe94f82b, 0xa54ff53a5f1d36f1,
   0x510e527fade682d1, 0x9b05688c2b3e6c1f, 0x1f83d9abfb41bd6b, 0x5be0cd19137e2179]

def blakeSigma : List (List Nat) :=
  [[0, 1, 2, 3, 4, 5, 6, 7, 8, 9, 10, 11, 12, 13, 14, 15],
   [14, 10, 4, 8, 9, 15, 13, 6, 1, 12, 0, 2, 11, 7, 5, 3],
   [11, 8, 12, 0, 5, 2, 15, 13, 10, 14, 3, 6, 7, 1, 9, 4],
   [7, 9, 3, 1, 13, 12, 11, 14, 2, 6, 5, 10, 4, 0, 15, 8],
   [9, 0, 5, 7, 2, 4, 10, 15, 14, 1, 11, 12, 6, 8, 3, 13],
   [2, 12, 6, 10, 0, 11, 8, 3, 4, 13, 7, 5, 15, 14, 1, 9],
   [12, 5, 1, 15, 14, 13, 4, 10, 0, 7, 6, 3, 9, 2, 8, 11],
   [13, 11, 7, 14, 12, 1, 3, 9, 5, 0, 15, 4, 8, 6, 2, 10],
   [6, 15, 14, 9, 11, 3, 0, 8, 12, 2, 13, 7, 1, 4, 10, 5],
   [10, 2, 8, 4, 7, 6, 1, 5, 15, 11, 9, 14, 3, 12, 13, 0]]

/-- Blake2b mixing function G on the 16-word work vector. -/
def blakeG (v : List Nat) (a b c d x y : Nat) : List Nat :=
  let va1 := (v.getD a 0 + v.getD b 0 + x) % M64
  let vd1 := rotr64 (v.getD d 0 ^^^ va1) 32
  let vc1 := (v.getD c 0 + vd1) % M64
  let vb1 := rotr64 (v.getD b 0 ^^^ vc1) 24
  let va2 := (va1 + vb1 + y) % M64
  let vd2 := rotr64 (vd1 ^^^ va2) 16
  let vc2 := (vc1 + vd2) % M64
  let vb2 := rotr64 (vb1 ^^^ vc2) 63
  (((v.set a va2).set b vb2).set c vc2).set d vd2

/-- One Blake2b round with message words `m` and schedule row `s`. -/
def blakeRound (m v s : List Nat) : List Nat :=
  let mi := fun i => m.getD (s.getD i 0) 0
  let v := blakeG v 0 4 8 12 (mi 0) (mi 1)
  let v := blakeG v 1 5 9 13 (mi 2) (mi 3)
  let v := blakeG v 2 6 10 14 (mi 4) (mi 5)
  let v := blakeG v 3 7 11 15 (mi 6) (mi 7)
  let v := blakeG v 0 5 10 15 (mi 8) (mi 9)
  let v := blakeG v 1 6 11 12 (mi 10) (mi 11)
  let v := blakeG v 2 7 8 13 (mi 12) (mi 13)
  blakeG v 3 4 9 14 (mi 14) (mi 15)

/-- Blake2b compression: state words `h`, message words `m`, byte counter `t`,
final-block flag `last`. -/
def blakeCompress (h m : List Nat) (t : Nat) (last : Bool) : List Nat :=
  let v := h.take 8 ++ blakeIV
  let v := v.set 12 (v.getD 12 0 ^^^ t % M64)
  let v := v.set 13 (v.getD 13 0 ^^^ t / M64 % M64)
  let v := if last then v.set 14 (v.getD 14 0 ^^^ (M64 - 1)) else v
  let v := (List.range 12).foldl (fun v i => blakeRound m v (blakeSigma.getD (i % 10) [])) v
  (List.range 8).map (fun i => h.getD i 0 ^^^ v.getD i 0 ^^^ v.getD (i + 8) 0)

/-- Zero-pad a (≤ 128 byte) block to 128 bytes. -/
def padBlock (b : List Nat) : List Nat := b ++ List.replicate (128 - b.length) 0

/-- The sixteen little-endian 64-bit message words of a 128-byte block. -/
def wordsOfBlock (b : List Nat) : List Nat :=
  (List.range 16).map (fun i => u64FromLE (b.drop (8 * i)))

/-- Absorb `msg` into state `h`, `count` bytes having been compressed already. -/
def blake2bLoop (h msg : List Nat) (count : Nat) : List Nat :=
  if h128 : msg.length ≤ 128 then
    blakeCompress h (wordsOfBlock (padBlock msg)) (count + msg.length) true
  else
    blake2bLoop (blakeCompress h (wordsOfBlock (msg.take 128)) (count + 128) false)
      (msg.drop 128) (count + 128)
termination_by msg.length
decreasing_by simp only [List.length_drop]; omega

/-- Initial state for an unkeyed Blake2b with 32-byte digest:
`IV[0] ^^^ (0x01010000 ^^^ 32)`. -/
def blake2bH0 : List Nat := blakeIV.set 0 (blakeIV.getD 0 0 ^^^ 0x01010020)

def u64ToLEBytes (x : Nat) : List Nat :=
  [x % 256, x / 2 ^ 8 % 256, x / 2 ^ 16 % 256, x / 2 ^ 24 % 256,
   x / 2 ^ 32 % 256, x / 2 ^ 40 % 256, x / 2 ^ 48 % 256, x / 2 ^ 56 % 256]

/-- Blake2b digest with 32-byte output of a byte string. -/
def blake2b256 (msg : List Nat) : List Nat :=
  ((blake2bLoop blake2bH0 msg 0).map u64ToLEBytes).flatten.take BLAKE2B_BLOCK_SIZE

/-! ## The witness (policy descriptor) phase of `main` -/

/-- The part of `main` that obtains the witness lock field and enforces the
descriptor's structural invariants, in the source's order.  On success it
returns the lock bytes together with `multisig_script_len = 4 + 20 * pubkeys_cnt`
(the hashed header-plus-keys length). -/
def verifyWitness (lockOpt : Option (List Nat)) : Except Error (List Nat × Nat) :=
  match lockOpt with
  | none => .error .WitnessSize
  | some lock_bytes =>
    if lock_bytes.length < FLAGS_SIZE then .error .WitnessSize
    else if lock_bytes.getD 0 0 ≠ 0 then .error .InvalidReserveField
    else
      let require_first_n := lock_bytes.getD 1 0
      let threshold := lock_bytes.getD 2 0
      if threshold = 0 then .error .InvalidThreshold
      else
        let pubkeys_cnt := lock_bytes.getD 3 0
        if pubkeys_cnt = 0 then .error .InvalidPubkeysCnt
        else if pubkeys_cnt < threshold then .error .InvalidThreshold
        else if threshold < require_first_n then .error .InvalidRequireFirstN
        else
          let multisig_script_len := FLAGS_SIZE + BLAKE160_SIZE * pubkeys_cnt
          let signatures_len := SIGNATURE_SIZE * threshold
          let required_lock_len := multisig_script_len + signatures_len
          if lock_bytes.length ≠ required_lock_len then .error .WitnessSize
          else .ok (lock_bytes, multisig_script_len)

/-! ## The since (relative time-lock) check -/

/-- `since` field extraction: `number` is the low 24 bits of the 56-bit value. -/
def epochNumber (v : Nat) : Nat := v % 2 ^ 24

/-- `index`: bits 24..39 of the 56-bit value. -/
def epochIndex (v : Nat) : Nat := v / 2 ^ 24 % 2 ^ 16

/-- `length`: bits 40..55 of the 56-bit value. -/
def epochLength (v : Nat) : Nat := v / 2 ^ 40 % 2 ^ 16

/-- `epoch_number_with_fraction_cmp` from `entry.rs`: compare the 24-bit epoch
numbers strictly; on equal numbers compare the fractions `index / length` by
cross-multiplication (`a_block = a_index * b_len` vs `b_block = b_index * a_len`). -/
def epoch_number_with_fraction_cmp (a b : Nat) : Int :=
  let a_epoch := epochNumber a
  let a_index := epochIndex a
  let a_len := epochLength a
  let b_epoch := epochNumber b
  let b_index := epochIndex b
  let b_len := epochLength b
  if a_epoch < b_epoch then -1
  else if b_epoch < a_epoch then 1
  else
    let a_block := a_index * b_len
    let b_block := b_index * a_len
    if a_block < b_block then -1
    else if b_block < a_block then 1
    else 0

/-- The epoch-fraction flag byte `0b0010_0000`. -/
def SINCE_EPOCH_FRACTION_FLAG : Nat := 32

/-- `since >> SINCE_VALUE_BITS`: the top flags byte of a since value. -/
def sinceFlagsOf (s : Nat) : Nat := s / 2 ^ 56

/-- `since & SINCE_VALUE_MASK`: the low 56 bits of a since value. -/
def sinceValueOf (s : Nat) : Nat := s % 2 ^ 56

/-- The body of `check_since`'s enumeration loop over the group output slots. -/
def checkSinceLoop (since_flags since_value : Nat) (sinces : List Nat) : Except Error Unit :=
  match sinces with
  | [] => .ok ()
  | input_since :: rest =>
    let input_since_flags := sinceFlagsOf input_since
    let input_since_value := sinceValueOf input_since
    if since_flags ≠ input_since_flags then .error .IncorrectSinceFlags
    else if input_since_flags = SINCE_EPOCH_FRACTION_FLAG then
      if epoch_number_with_fraction_cmp input_since_value since_value < 0 then
        .error .IncorrectSinceValue
      else checkSinceLoop since_flags since_value rest
    else if input_since_value < since_value then .error .IncorrectSinceValue
    else checkSinceLoop since_flags since_value rest

/-- `check_since` from `entry.rs`: split the bound into `flags = since >> 56`
and `value = since & 0x00ff_ffff_ffff_ffff`, then walk the group output slots. -/
def check_since (since : Nat) (sinces : List Nat) : Except Error Unit :=
  checkSinceLoop (sinceFlagsOf since) (sinceValueOf since) sinces

/-! ## The entry point -/

/-- `main` from `entry.rs`. -/
def main (e : Env) : Except Error Unit :=
  if e.args.length ≠ BLAKE160_SIZE ∧ e.args.length ≠ BLAKE160_SIZE + U64_SIZE then
    .error .ArgumentsLen
  else
    let since := if e.args.length = BLAKE160_SIZE + U64_SIZE
      then u64FromLE (e.args.drop BLAKE160_SIZE) else 0
    match verifyWitness e.lock with
    | .error er => .error er
    | .ok (lock_bytes, multisig_script_len) =>
      if e.args ≠ blake2b256 (lock_bytes.take multisig_script_len) then
        .error .MultsigScriptHash
      else check_since since e.sinces

/-- The flavor-indexed strict comparison used per slot: epoch-fraction flavor
compares with `epoch_number_with_fraction_cmp`, the plain flavors compare the
56-bit values as integers. -/
def sinceLt (cand bound flags : Nat) : Bool :=
  if flags = SINCE_EPOCH_FRACTION_FLAG then
    decide (epoch_number_with_fraction_cmp cand bound < 0)
  else decide (cand < bound)

end CkbMultisig

/-! ## Helper lemmas -/

namespace CkbMultisig

theorem blakeCompress_length (h m : List Nat) (t : Nat) (last : Bool) :
    (blakeCompress h m t last).length = 8 := by
  simp [blakeCompress]

theorem blake2bLoop_length_aux :
    ∀ (n : Nat) (msg h : List Nat) (c : Nat), msg.length ≤ n →
      (blake2bLoop h msg c).length = 8 := by
  intro n
  induction n with
  | zero =>
    intro msg h c hle
    rw [blake2bLoop]
    rw [dif_pos (by omega)]
    exact blakeCompress_length ..
  | succ n ih =>
    intro msg h c hle
    rw [blake2bLoop]
    by_cases h128 : msg.length ≤ 128
    · rw [dif_pos h128]; exact blakeCompress_length ..
    · rw [dif_neg h128]
      exact ih _ _ _ (by simp only [List.length_drop]; omega)

theorem blake2bLoop_length (h msg : List Nat) (c : Nat) :
    (blake2bLoop h msg c).length = 8 :=
  blake2bLoop_length_aux msg.length msg h c le_rfl

theorem flatten_map_u64ToLEBytes_length (ws : List Nat) :
    ((ws.map u64ToLEBytes).flatten).length = 8 * ws.length := by
  induction ws with
  | nil => simp
  | cons w ws ih => simp [u64ToLEBytes, ih]; omega

theorem blake2b256_length (msg : List Nat) : (blake2b256 msg).length = 32 := by
  rw [blake2b256, List.length_take, flatten_map_u64ToLEBytes_length, blake2bLoop_length]
  rfl

theorem ne_of_length_ne {l1 l2 : List Nat} (h : l1.length ≠ l2.length) : l1 ≠ l2 :=
  fun he => h (he ▸ rfl)

/-- `verifyWitness` only ever fails with one of the five descriptor errors. -/
theorem verifyWitness_error_cases (lo : Option (List Nat)) (er : Error)
    (h : verifyWitness lo = .error er) :
    er = .WitnessSize ∨ er = .InvalidReserveField ∨ er = .InvalidThreshold ∨
      er = .InvalidPubkeysCnt ∨ er = .InvalidRequireFirstN := by
  cases lo with
  | none => simp [verifyWitness] at h; tauto
  | some l =>
    simp only [verifyWitness] at h
    split_ifs at h <;> simp_all

end CkbMultisig

namespace CkbMultisig

theorem epoch_cmp_nonneg_iff (a b : Nat) :
    0 ≤ epoch_number_with_fraction_cmp a b ↔
      (epochNumber b < epochNumber a ∨
        (epochNumber a = epochNumber b ∧
          epochIndex b * epochLength a ≤ epochIndex a * epochLength b)) := by
  simp only [epoch_number_with_fraction_cmp]
  split_ifs <;> omega

theorem epoch_cmp_antisymm (a b : Nat) :
    epoch_number_with_fraction_cmp a b = -epoch_number_with_fraction_cmp b a := by
  simp only [epoch_number_with_fraction_cmp]
  split_ifs <;> omega

end CkbMultisig

namespace CkbMultisig

theorem epoch_cmp_trans (a b c : Nat) (hlb : epochLength b ≠ 0)
    (h1 : 0 ≤ epoch_number_with_fraction_cmp a b)
    (h2 : 0 ≤ epoch_number_with_fraction_cmp b c) :
    0 ≤ epoch_number_with_fraction_cmp a c := by
  rw [epoch_cmp_nonneg_iff] at h1 h2 ⊢
  rcases h1 with h1 | ⟨h1e, h1f⟩ <;> rcases h2 with h2 | ⟨h2e, h2f⟩
  · left; omega
  · left; omega
  · left; omega
  · right
    refine ⟨by omega, ?_⟩
    have key : epochLength b * (epochIndex c * epochLength a) ≤
        epochLength b * (epochIndex a * epochLength c) := by
      calc epochLength b * (epochIndex c * epochLength a)
          = epochIndex c * epochLength b * epochLength a := by ring
        _ ≤ epochIndex b * epochLength c * epochLength a := Nat.mul_le_mul h2f le_rfl
        _ = epochIndex b * epochLength a * epochLength c := by ring
        _ ≤ epochIndex a * epochLength b * epochLength c := Nat.mul_le_mul h1f le_rfl
        _ = epochLength b * (epochIndex a * epochLength c) := by ring
    exact Nat.le_of_mul_le_mul_left key (Nat.pos_of_ne_zero hlb)

end CkbMultisig

namespace CkbMultisig

/-- Unrolling the since loop over a concatenation. -/
theorem checkSinceLoop_append (f v : Nat) (xs ys : List Nat) :
    checkSinceLoop f v (xs ++ ys) =
      match checkSinceLoop f v xs with
      | .ok _ => checkSinceLoop f v ys
      | .error er => .error er := by
  induction xs with
  | nil => simp [checkSinceLoop]
  | cons x xs ih =>
    simp only [List.cons_append, checkSinceLoop]
    split_ifs <;> simp [ih]

/-- One loop step on a slot whose flags agree with the bound's. -/
theorem checkSinceLoop_cons_sameflag (f v s : Nat) (l : List Nat)
    (hs : sinceFlagsOf s = f) :
    checkSinceLoop f v (s :: l) =
      if sinceLt (sinceValueOf s) v f = true then .error .IncorrectSinceValue
      else checkSinceLoop f v l := by
  simp only [checkSinceLoop, hs]
  rw [if_neg (fun h => h rfl)]
  by_cases h32 : f = SINCE_EPOCH_FRACTION_FLAG
  · rw [if_pos h32]
    by_cases hc : epoch_number_with_fraction_cmp (sinceValueOf s) v < 0
    · rw [if_pos hc, if_pos (by simp [sinceLt, h32, hc])]
    · rw [if_neg hc, if_neg (by simp [sinceLt, h32, hc])]
  · rw [if_neg h32]
    by_cases hc : sinceValueOf s < v
    · rw [if_pos hc, if_pos (by simp [sinceLt, h32, hc])]
    · rw [if_neg hc, if_neg (by simp [sinceLt, h32, hc])]

/-- When all slots carry the bound's flags, the loop succeeds exactly when no
slot's value is strictly below the bound's value. -/
theorem checkSinceLoop_ok_iff (f v : Nat) (l : List Nat)
    (hf : ∀ s ∈ l, sinceFlagsOf s = f) :
    (checkSinceLoop f v l = .ok () ↔ ∀ s ∈ l, sinceLt (sinceValueOf s) v f = false) := by
  induction l with
  | nil => simp [checkSinceLoop]
  | cons s l ih =>
    rw [checkSinceLoop_cons_sameflag f v s l (hf s (by simp))]
    by_cases hlt : sinceLt (sinceValueOf s) v f = true
    · rw [if_pos hlt]
      constructor
      · intro h; cases h
      · intro hall; exact absurd (hall s (by simp)) (by simp [hlt])
    · rw [if_neg hlt]
      rw [ih (fun x hx => hf x (by simp [hx]))]
      simp only [Bool.not_eq_true] at hlt
      simp [hlt]

/-- When all slots carry the bound's flags, the only possible failure of the
loop is `IncorrectSinceValue`. -/
theorem checkSinceLoop_fail (f v : Nat) (l : List Nat)
    (hf : ∀ s ∈ l, sinceFlagsOf s = f)
    (h : checkSinceLoop f v l ≠ .ok ()) :
    checkSinceLoop f v l = .error .IncorrectSinceValue := by
  induction l with
  | nil => simp [checkSinceLoop] at h
  | cons s l ih =>
    rw [checkSinceLoop_cons_sameflag f v s l (hf s (by simp))] at h ⊢
    by_cases hlt : sinceLt (sinceValueOf s) v f = true
    · rw [if_pos hlt]
    · rw [if_neg hlt] at h ⊢
      exact ih (fun x hx => hf x (by simp [hx])) h

end CkbMultisig

namespace CkbMultisig

/-- With well-formed args and a valid descriptor, `main` always stops at the
commitment comparison: the whole args buffer (20 or 28 bytes) is compared
byte-wise with the 32-byte digest, which can never succeed. -/
theorem main_commit_fails (e : Env) (lockBytes : List Nat) (mlen : Nat)
    (hargs : e.args.length = 20 ∨ e.args.length = 28)
    (hwit : verifyWitness e.lock = .ok (lockBytes, mlen)) :
    main e = .error .MultsigScriptHash := by
  unfold main
  rw [if_neg (by simp only [BLAKE160_SIZE, U64_SIZE]; omega)]
  simp only [hwit]
  rw [if_pos (ne_of_length_ne (by rw [blake2b256_length]; omega))]

end CkbMultisig

namespace CkbMultisig

/-- C1: for every argument buffer of length 20 or 28 and every structurally
valid policy descriptor, validation proceeds past the commitment check if and
only if the on-chain policy commitment (the first 20 argument bytes) equals the
32-byte Blake2b digest of the descriptor's header-plus-keys bytes
`lock_bytes[0 .. 4 + 20 * N]`; otherwise it rejects with the commitment
mismatch error (`MultsigScriptHash`).  (Both sides of the equivalence are in
fact always false: the code compares the whole 20- or 28-byte argument buffer
with the 32-byte digest, and the claimed equality compares a 20-byte
commitment with the same 32-byte digest.) -/
theorem c1_commitment_iff (e : Env) (lockBytes : List Nat) (mlen : Nat)
    (hargs : e.args.length = 20 ∨ e.args.length = 28)
    (hwit : verifyWitness e.lock = .ok (lockBytes, mlen)) :
    ((main e ≠ .error .MultsigScriptHash) ↔
      e.args.take 20 = blake2b256 (lockBytes.take mlen)) ∧
    (e.args.take 20 ≠ blake2b256 (lockBytes.take mlen) →
      main e = .error .MultsigScriptHash) := by
  have hm := main_commit_fails e lockBytes mlen hargs hwit
  constructor
  · constructor
    · intro h; exact absurd hm h
    · intro h
      exfalso
      have hl := congrArg List.length h
      rw [List.length_take, blake2b256_length] at hl
      omega
  · intro _; exact hm

/-- Witness for C1 at a concrete environment: 20-byte args, a structurally
valid descriptor with `require_first_n = 1`, `threshold = 2`,
`pubkey_count = 3` and total length `194 = 4 + 20 * 3 + 65 * 2`. -/
theorem c1_commitment_iff_witness :
    ((main ⟨List.replicate 20 0, some ([0, 1, 2, 3] ++ List.replicate 190 0), []⟩ ≠
        .error .MultsigScriptHash) ↔
      (List.replicate 20 (0 : Nat)).take 20 =
        blake2b256 (([0, 1, 2, 3] ++ List.replicate 190 (0 : Nat)).take 64)) ∧
    ((List.replicate 20 (0 : Nat)).take 20 ≠
        blake2b256 (([0, 1, 2, 3] ++ List.replicate 190 (0 : Nat)).take 64) →
      main ⟨List.replicate 20 0, some ([0, 1, 2, 3] ++ List.replicate 190 0), []⟩ =
        .error .MultsigScriptHash) :=
  c1_commitment_iff _ _ 64 (Or.inl (by simp)) (by decide)

/-- C2: no host environment makes `main` return `Ok`: the commitment
comparison tests the whole 20- or 28-byte arguments buffer against a 32-byte
digest, so every run ends in some error. -/
theorem c2_never_ok (e : Env) : ∃ er, main e = .error er := by
  unfold main
  split
  · exact ⟨.ArgumentsLen, rfl⟩
  · rename_i h
    have hargs : e.args.length = 20 ∨ e.args.length = 28 := by
      simp only [BLAKE160_SIZE, U64_SIZE] at h; omega
    cases hw : verifyWitness e.lock with
    | error er => exact ⟨er, by simp [hw]⟩
    | ok p =>
      obtain ⟨lockBytes, mlen⟩ := p
      refine ⟨.MultsigScriptHash, ?_⟩
      simp only [hw]
      rw [if_pos (ne_of_length_ne (by rw [blake2b256_length]; omega))]

end CkbMultisig

namespace CkbMultisig

/-- C3 counterexample: with a zero since bound (the 20-byte-args case),
time-lock enforcement is NOT skipped: `check_since 0` rejects a group output
slot whose flags byte is nonzero (here flags = 1) with `IncorrectSinceFlags`,
contradicting "skipped unconditionally / never rejects with
IncorrectSinceFlags regardless of the slots' time-lock values". -/
theorem c3_skip_counterexample :
    check_since 0 [2 ^ 56] = .error .IncorrectSinceFlags := by decide

/-- C3 amended: a run whose arguments are exactly 20 bytes indeed never ends
in `IncorrectSinceFlags` or `IncorrectSinceValue` — but only because the
commitment comparison (or an earlier check) fails every run first, not because
enforcement is skipped: `check_since` with a zero bound still enumerates the
group output slots and succeeds exactly when every slot's flags byte is zero. -/
theorem c3_amended :
    (∀ e : Env, e.args.length = 20 →
      main e ≠ .error .IncorrectSinceFlags ∧ main e ≠ .error .IncorrectSinceValue) ∧
    (∀ sinces : List Nat,
      check_since 0 sinces = .ok () ↔ ∀ s ∈ sinces, sinceFlagsOf s = 0) := by
  constructor
  · intro e he
    cases hv : verifyWitness e.lock with
    | ok p =>
      obtain ⟨lockBytes, mlen⟩ := p
      have hm := main_commit_fails e lockBytes mlen (Or.inl he) hv
      rw [hm]
      constructor <;> simp
    | error er =>
      have her := verifyWitness_error_cases _ _ hv
      have hm : main e = .error er := by
        unfold main
        rw [if_neg (by simp only [BLAKE160_SIZE, U64_SIZE]; omega)]
        simp [hv]
      rw [hm]
      rcases her with h | h | h | h | h <;> rw [h] <;> constructor <;> simp
  · intro sinces
    have h0f : sinceFlagsOf 0 = 0 := by simp [sinceFlagsOf]
    have h0v : sinceValueOf 0 = 0 := by simp [sinceValueOf]
    unfold check_since
    rw [h0f, h0v]
    induction sinces with
    | nil => simp [checkSinceLoop]
    | cons s l ih =>
      simp only [checkSinceLoop]
      by_cases hs : sinceFlagsOf s = 0
      · rw [if_neg (by omega)]
        rw [hs, if_neg (by simp [SINCE_EPOCH_FRACTION_FLAG])]
        rw [if_neg (by omega)]
        simp only [ih, List.mem_cons]
        constructor
        · intro h x hx
          rcases hx with rfl | hx
          · exact hs
          · exact h x hx
        · intro hall x hx
          exact hall x (Or.inr hx)
      · rw [if_pos (by omega)]
        constructor
        · intro h; cases h
        · intro hall; exact absurd (hall s (by simp)) hs

/-- Witness for C3's amended main-level statement at a concrete 20-byte-args
environment whose group outputs carry a nonzero-flag time-lock. -/
theorem c3_amended_witness :
    main ⟨List.replicate 20 0, some ([0, 1, 2, 3] ++ List.replicate 190 0), [2 ^ 56]⟩ ≠
        .error .IncorrectSinceFlags ∧
      main ⟨List.replicate 20 0, some ([0, 1, 2, 3] ++ List.replicate 190 0), [2 ^ 56]⟩ ≠
        .error .IncorrectSinceValue :=
  c3_amended.1 _ (by simp)

end CkbMultisig

namespace CkbMultisig

/-- C4 counterexample: the violations do NOT each map to their own separate
error kind.  A zero threshold and a threshold exceeding the pubkey count both
report `InvalidThreshold`, and a too-short witness and a total-length mismatch
both report `WitnessSize`. -/
theorem c4_distinct_errors_counterexample :
    verifyWitness (some [0, 0, 0, 1]) = .error .InvalidThreshold ∧
    verifyWitness (some [0, 0, 2, 1]) = .error .InvalidThreshold ∧
    verifyWitness (some [0]) = .error .WitnessSize ∧
    verifyWitness (some [0, 1, 2, 3, 0]) = .error .WitnessSize := by
  refine ⟨by decide, by decide, by decide, by decide⟩

/-- C4 amended: descriptor validation runs its checks in the fixed source
order (witness present and at least 4 bytes, reserved byte zero, threshold
nonzero, pubkey count nonzero, threshold at most the pubkey count,
require_first_n at most the threshold, total length exactly
`4 + 20 * N + 65 * M`), and the first violated check determines the reported
error — but the error kinds are not all distinct: a missing/short witness and
a length mismatch share `WitnessSize`, and the two threshold violations share
`InvalidThreshold`. -/
theorem c4_first_violation_order (lock : List Nat) :
    (verifyWitness none = .error .WitnessSize) ∧
    (lock.length < 4 → verifyWitness (some lock) = .error .WitnessSize) ∧
    (4 ≤ lock.length → lock.getD 0 0 ≠ 0 →
      verifyWitness (some lock) = .error .InvalidReserveField) ∧
    (4 ≤ lock.length → lock.getD 0 0 = 0 → lock.getD 2 0 = 0 →
      verifyWitness (some lock) = .error .InvalidThreshold) ∧
    (4 ≤ lock.length → lock.getD 0 0 = 0 → lock.getD 2 0 ≠ 0 → lock.getD 3 0 = 0 →
      verifyWitness (some lock) = .error .InvalidPubkeysCnt) ∧
    (4 ≤ lock.length → lock.getD 0 0 = 0 → lock.getD 2 0 ≠ 0 → lock.getD 3 0 ≠ 0 →
      lock.getD 3 0 < lock.getD 2 0 →
      verifyWitness (some lock) = .error .InvalidThreshold) ∧
    (4 ≤ lock.length → lock.getD 0 0 = 0 → lock.getD 2 0 ≠ 0 → lock.getD 3 0 ≠ 0 →
      lock.getD 2 0 ≤ lock.getD 3 0 → lock.getD 2 0 < lock.getD 1 0 →
      verifyWitness (some lock) = .error .InvalidRequireFirstN) ∧
    (4 ≤ lock.length → lock.getD 0 0 = 0 → lock.getD 2 0 ≠ 0 → lock.getD 3 0 ≠ 0 →
      lock.getD 2 0 ≤ lock.getD 3 0 → lock.getD 1 0 ≤ lock.getD 2 0 →
      lock.length ≠ 4 + 20 * lock.getD 3 0 + 65 * lock.getD 2 0 →
      verifyWitness (some lock) = .error .WitnessSize) ∧
    (4 ≤ lock.length → lock.getD 0 0 = 0 → lock.getD 2 0 ≠ 0 → lock.getD 3 0 ≠ 0 →
      lock.getD 2 0 ≤ lock.getD 3 0 → lock.getD 1 0 ≤ lock.getD 2 0 →
      lock.length = 4 + 20 * lock.getD 3 0 + 65 * lock.getD 2 0 →
      verifyWitness (some lock) = .ok (lock, 4 + 20 * lock.getD 3 0)) := by
  refine ⟨by simp [verifyWitness], ?_, ?_, ?_, ?_, ?_, ?_, ?_, ?_⟩ <;>
    · intros
      simp only [verifyWitness, FLAGS_SIZE, BLAKE160_SIZE, SIGNATURE_SIZE]
      split_ifs <;> first | rfl | omega

/-- Witness for C4's amended ordering statement: the reserved-byte check fires
first on a descriptor whose reserved byte is 5. -/
theorem c4_first_violation_order_witness :
    verifyWitness (some [5, 0, 0, 0]) = .error .InvalidReserveField :=
  (c4_first_violation_order [5, 0, 0, 0]).2.2.1 (by decide) (by decide)

/-- C5: once the field checks pass with pubkey count `N = lock[3]` and
threshold `M = lock[2]`, the descriptor is accepted exactly when its total
length is `4 + 20 * N + 65 * M`; concretely, with `require_first_n = 1`,
`threshold = 2`, `pubkey_count = 3` a 194-byte descriptor passes structural
validation and a 193-byte one is rejected. -/
theorem c5_descriptor_length :
    (∀ lock : List Nat, 4 ≤ lock.length → lock.getD 0 0 = 0 → lock.getD 2 0 ≠ 0 →
      lock.getD 3 0 ≠ 0 → lock.getD 2 0 ≤ lock.getD 3 0 → lock.getD 1 0 ≤ lock.getD 2 0 →
      ((∃ r, verifyWitness (some lock) = .ok r) ↔
        lock.length = 4 + 20 * lock.getD 3 0 + 65 * lock.getD 2 0)) ∧
    (∃ r, verifyWitness (some ([0, 1, 2, 3] ++ List.replicate 190 0)) = .ok r) ∧
    verifyWitness (some ([0, 1, 2, 3] ++ List.replicate 189 0)) = .error .WitnessSize := by
  refine ⟨?_, ⟨([0, 1, 2, 3] ++ List.replicate 190 0, 64), by decide⟩, by decide⟩
  intro lock h4 h0 h2 h3 hto hro
  simp only [verifyWitness, FLAGS_SIZE, BLAKE160_SIZE, SIGNATURE_SIZE]
  rw [if_neg (by omega), if_neg (fun h => h h0), if_neg h2, if_neg h3,
    if_neg (by omega), if_neg (by omega)]
  by_cases hlen : lock.length = 4 + 20 * lock.getD 3 0 + 65 * lock.getD 2 0
  · rw [if_neg (fun h => h hlen)]
    exact iff_of_true ⟨_, rfl⟩ hlen
  · rw [if_pos hlen]
    exact iff_of_false (fun hr => Except.noConfusion hr.choose_spec) hlen

/-- Witness for C5 at the concrete 194-byte descriptor. -/
theorem c5_descriptor_length_witness :
    (∃ r, verifyWitness (some ([0, 1, 2, 3] ++ List.replicate 190 (0 : Nat))) = .ok r) ↔
      ([0, 1, 2, 3] ++ List.replicate 190 (0 : Nat)).length =
        4 + 20 * ([0, 1, 2, 3] ++ List.replicate 190 (0 : Nat)).getD 3 0 +
          65 * ([0, 1, 2, 3] ++ List.replicate 190 (0 : Nat)).getD 2 0 :=
  c5_descriptor_length.1 _ (by decide) (by decide) (by decide) (by decide)
    (by decide) (by decide)

end CkbMultisig

namespace CkbMultisig

/-- C6: the epoch-fraction comparator compares the 24-bit number fields
strictly first, and only on equal numbers compares the fractions by
cross-multiplication (`candidate.index * bound.length` against
`bound.index * candidate.length`), with no division; with bound
`{number = 10, index = 1, length = 4}` and candidate
`{number = 10, index = 1, length = 2}` (both carrying the epoch-fraction flag
byte 0x20), the candidate satisfies the bound and `check_since` accepts the
slot. -/
theorem c6_cross_multiplication :
    (∀ a b : Nat, epochNumber a < epochNumber b →
      epoch_number_with_fraction_cmp a b = -1) ∧
    (∀ a b : Nat, epochNumber b < epochNumber a →
      epoch_number_with_fraction_cmp a b = 1) ∧
    (∀ a b : Nat, epochNumber a = epochNumber b →
      epoch_number_with_fraction_cmp a b =
        (if epochIndex a * epochLength b < epochIndex b * epochLength a then -1
         else if epochIndex b * epochLength a < epochIndex a * epochLength b then 1
         else 0)) ∧
    check_since (32 * 2 ^ 56 + (4 * 2 ^ 40 + 1 * 2 ^ 24 + 10))
      [32 * 2 ^ 56 + (2 * 2 ^ 40 + 1 * 2 ^ 24 + 10)] = .ok () := by
  refine ⟨?_, ?_, ?_, by decide⟩
  · intro a b h
    simp only [epoch_number_with_fraction_cmp]
    rw [if_pos h]
  · intro a b h
    simp only [epoch_number_with_fraction_cmp]
    rw [if_neg (by omega), if_pos h]
  · intro a b h
    simp only [epoch_number_with_fraction_cmp]
    rw [if_neg (by omega), if_neg (by omega)]

/-- Witness for C6's strict-number components at concrete operands. -/
theorem c6_cross_multiplication_witness :
    epoch_number_with_fraction_cmp 0 1 = -1 ∧ epoch_number_with_fraction_cmp 1 0 = 1 :=
  ⟨c6_cross_multiplication.1 0 1 (by decide), c6_cross_multiplication.2.1 1 0 (by decide)⟩

/-- C7 counterexample: the comparator is NOT transitive once a length field is
0, so it is not a total order on all 56-bit epoch-fraction values.  With
`a = {number 0, index 0, length 1}`, `b = {number 0, index 0, length 0}` and
`c = {number 0, index 1, length 1}`: `cmp a b = 0`, `cmp b c = 0`, yet
`cmp a c = -1`. -/
theorem c7_total_order_counterexample :
    0 ≤ epoch_number_with_fraction_cmp (2 ^ 40) 0 ∧
    0 ≤ epoch_number_with_fraction_cmp 0 (2 ^ 40 + 2 ^ 24) ∧
    epoch_number_with_fraction_cmp (2 ^ 40) (2 ^ 40 + 2 ^ 24) < 0 := by
  refine ⟨by decide, by decide, by decide⟩

/-- C7 amended: the comparator is antisymmetric on all 64-bit operands
(`cmp a b = -cmp b a`), and it is transitive whenever the middle operand's
16-bit length field is nonzero; transitivity fails in general when that length
is 0 (see the counterexample). -/
theorem c7_antisymm_and_guarded_trans :
    (∀ a b : Nat, epoch_number_with_fraction_cmp a b = -epoch_number_with_fraction_cmp b a) ∧
    (∀ a b c : Nat, epochLength b ≠ 0 →
      0 ≤ epoch_number_with_fraction_cmp a b → 0 ≤ epoch_number_with_fraction_cmp b c →
      0 ≤ epoch_number_with_fraction_cmp a c) :=
  ⟨epoch_cmp_antisymm, epoch_cmp_trans⟩

/-- Witness for C7's guarded transitivity at concrete operands with a nonzero
middle length field. -/
theorem c7_antisymm_and_guarded_trans_witness :
    0 ≤ epoch_number_with_fraction_cmp (2 ^ 40) (2 ^ 40) :=
  c7_antisymm_and_guarded_trans.2 (2 ^ 40) (2 ^ 40) (2 ^ 40) (by decide) (by decide)
    (by decide)

/-- C8: for a nonzero bound and slots whose flags all equal the bound's,
`check_since` succeeds exactly when no slot's value is strictly below the
bound's value under the flavor's comparison (equal or greater both pass), and
any strictly-smaller slot makes the whole run fail with
`IncorrectSinceValue`. -/
theorem c8_not_strictly_less (since : Nat) (sinces : List Nat) (_hnz : since ≠ 0)
    (hf : ∀ s ∈ sinces, sinceFlagsOf s = sinceFlagsOf since) :
    (check_since since sinces = .ok () ↔
      ∀ s ∈ sinces,
        sinceLt (sinceValueOf s) (sinceValueOf since) (sinceFlagsOf since) = false) ∧
    ((∃ s ∈ sinces,
        sinceLt (sinceValueOf s) (sinceValueOf since) (sinceFlagsOf since) = true) →
      check_since since sinces = .error .IncorrectSinceValue) := by
  unfold check_since
  constructor
  · exact checkSinceLoop_ok_iff _ _ _ hf
  · intro hex
    obtain ⟨s, hs, hlt⟩ := hex
    apply checkSinceLoop_fail _ _ _ hf
    intro hok
    rw [checkSinceLoop_ok_iff _ _ _ hf] at hok
    exact absurd (hok s hs) (by simp [hlt])

/-- Witness for C8 with bound 1 (block-number flavor) and a single satisfying
slot 2. -/
theorem c8_not_strictly_less_witness :
    (check_since 1 [2] = .ok () ↔
      ∀ s ∈ [2],
        sinceLt (sinceValueOf s) (sinceValueOf 1) (sinceFlagsOf 1) = false) ∧
    ((∃ s ∈ [2],
        sinceLt (sinceValueOf s) (sinceValueOf 1) (sinceFlagsOf 1) = true) →
      check_since 1 [2] = .error .IncorrectSinceValue) :=
  c8_not_strictly_less 1 [2] (by decide) (by decide)

/-- C9: for a nonzero bound, the first enumerated slot whose top-byte flags
differ from the bound's makes the run fail with `IncorrectSinceFlags`,
whatever the numeric values of either operand and whatever slots follow. -/
theorem c9_flag_mismatch (since : Nat) (pre : List Nat) (s : Nat) (rest : List Nat)
    (_hnz : since ≠ 0) (hpre : check_since since pre = .ok ())
    (hs : sinceFlagsOf s ≠ sinceFlagsOf since) :
    check_since since (pre ++ s :: rest) = .error .IncorrectSinceFlags := by
  unfold check_since at hpre ⊢
  rw [checkSinceLoop_append, hpre]
  simp only [checkSinceLoop]
  rw [if_pos (Ne.symm hs)]

/-- Witness for C9: bound 1 (flags 0), one slot with flags byte 1. -/
theorem c9_flag_mismatch_witness :
    check_since 1 ([] ++ 2 ^ 56 :: []) = .error .IncorrectSinceFlags :=
  c9_flag_mismatch 1 [] (2 ^ 56) [] (by decide) (by decide) (by decide)

theorem epochIndex_lt (v : Nat) : epochIndex v < 2 ^ 16 :=
  Nat.mod_lt _ (by norm_num)

theorem epochLength_lt (v : Nat) : epochLength v < 2 ^ 16 :=
  Nat.mod_lt _ (by norm_num)

/-- C10: the comparator is a total function into `{-1, 0, 1}`, and because the
index and length operands are masked to 16 bits, each cross-multiplication
product is below `2 ^ 32`, so the `u64` products cannot overflow. -/
theorem c10_no_overflow (a b : Nat) :
    (epoch_number_with_fraction_cmp a b = -1 ∨ epoch_number_with_fraction_cmp a b = 0 ∨
      epoch_number_with_fraction_cmp a b = 1) ∧
    epochIndex a * epochLength b < 2 ^ 32 ∧ epochIndex b * epochLength a < 2 ^ 32 := by
  have ia := epochIndex_lt a
  have ib := epochIndex_lt b
  have la := epochLength_lt a
  have lb := epochLength_lt b
  refine ⟨?_, ?_, ?_⟩
  · simp only [epoch_number_with_fraction_cmp]
    split_ifs <;> simp
  · calc epochIndex a * epochLength b ≤ (2 ^ 16 - 1) * (2 ^ 16 - 1) :=
        Nat.mul_le_mul (by omega) (by omega)
      _ < 2 ^ 32 := by norm_num
  · calc epochIndex b * epochLength a ≤ (2 ^ 16 - 1) * (2 ^ 16 - 1) :=
        Nat.mul_le_mul (by omega) (by omega)
      _ < 2 ^ 32 := by norm_num

end CkbMultisig
